import Mathlib

/-!
Verification of the 2×2 eigendecomposition engine and diagonalization
stager of the interactive-eigenvector repository.

The JavaScript numbers of the source are modelled as elements of a linear
ordered field (instantiated at `ℝ` for the operations that take square
roots, and at `ℚ` for concrete evaluations of the square-root-free
operations).  The numeric literals `1e-10`, `1e-6`, `0.33`, `0.34`, `0.67`
of the source are written as the exact fractions `1/10^10`, `1/10^6`,
`33/100`, `34/100`, `67/100`.
-/

namespace EigenViz

/-- The 2×2 matrix value `{a, b, c, d}` of the source's `Matrix2D` class,
representing the matrix `[[a, b], [c, d]]`. -/
@[ext]
structure Matrix2D (α : Type) where
  a : α
  b : α
  c : α
  d : α
deriving DecidableEq

/-- A 2D point `{x, y}`, the result shape of `Matrix2D.transform`. -/
@[ext]
structure Vec2 (α : Type) where
  x : α
  y : α
deriving DecidableEq

variable {α : Type} [LinearOrderedField α]

/-- Source `Matrix2D.identity()`: returns `new Matrix2D(1, 0, 0, 1)`. -/
def Matrix2D.identity : Matrix2D α := ⟨1, 0, 0, 1⟩

/-- Source `Matrix2D.lerp(m1, m2, t)`: component-wise
`m1.f + (m2.f - m1.f) * t`. -/
def Matrix2D.lerp (m1 m2 : Matrix2D α) (t : α) : Matrix2D α :=
  ⟨m1.a + (m2.a - m1.a) * t,
   m1.b + (m2.b - m1.b) * t,
   m1.c + (m2.c - m1.c) * t,
   m1.d + (m2.d - m1.d) * t⟩

/-- Source `Matrix2D.transform(x, y)`: returns
`{x: a*x + b*y, y: c*x + d*y}`. -/
def Matrix2D.transform (m : Matrix2D α) (x y : α) : Vec2 α :=
  ⟨m.a * x + m.b * y, m.c * x + m.d * y⟩

/-- Source `Matrix2D.determinant()`: `a*d - b*c`. -/
def Matrix2D.determinant (m : Matrix2D α) : α :=
  m.a * m.d - m.b * m.c

/-- Source `Matrix2D.trace()`: `a + d`. -/
def Matrix2D.trace (m : Matrix2D α) : α :=
  m.a + m.d

/-- Source `Matrix2D.inverse()` (README listing, lines 292–304): returns
`null` when `Math.abs(det) < 1e-10`, otherwise
`new Matrix2D(d/det, -b/det, -c/det, a/det)`. -/
def Matrix2D.inverse (m : Matrix2D α) : Option (Matrix2D α) :=
  if |m.determinant| < 1 / 10 ^ 10 then
    none
  else
    some ⟨m.d / m.determinant, -m.b / m.determinant,
          -m.c / m.determinant, m.a / m.determinant⟩

/-- Source `Matrix2D.multiply(other)` (README listing, lines 306–314):
the product `this * other`. -/
def Matrix2D.multiply (m other : Matrix2D α) : Matrix2D α :=
  ⟨m.a * other.a + m.b * other.c,
   m.a * other.b + m.b * other.d,
   m.c * other.a + m.d * other.c,
   m.c * other.b + m.d * other.d⟩

/-- A complex-number record `{real, imag}` as produced by `eigenvalues()`. -/
@[ext]
structure EigenComplex where
  real : ℝ
  imag : ℝ

/-- The result shape of `Matrix2D.eigenvalues`:
`{lambda1, lambda2, isComplex}`. -/
structure EigenResult where
  lambda1 : EigenComplex
  lambda2 : EigenComplex
  isComplex : Bool

/-- Source `Matrix2D.eigenvalues()`: with `trace`, `det` and
`discriminant = trace*trace - 4*det` (the source's locals, inlined here),
returns the conjugate pair `{trace/2, ±√(-discriminant)/2}` when the
discriminant is negative, else the real pair `(trace ± √discriminant)/2`
with `imag = 0`. -/
noncomputable def Matrix2D.eigenvalues (m : Matrix2D ℝ) : EigenResult :=
  if m.trace * m.trace - 4 * m.determinant < 0 then
    ⟨⟨m.trace / 2, Real.sqrt (-(m.trace * m.trace - 4 * m.determinant)) / 2⟩,
     ⟨m.trace / 2, -(Real.sqrt (-(m.trace * m.trace - 4 * m.determinant)) / 2)⟩,
     true⟩
  else
    ⟨⟨(m.trace + Real.sqrt (m.trace * m.trace - 4 * m.determinant)) / 2, 0⟩,
     ⟨(m.trace - Real.sqrt (m.trace * m.trace - 4 * m.determinant)) / 2, 0⟩,
     false⟩

/-- Normalization step closing `eigenvector` (source lines 80–81): divides
the pre-normalized `(vx, vy)` by `mag = Math.sqrt(vx*vx + vy*vy)`. -/
noncomputable def normalizeVec (v : ℝ × ℝ) : Vec2 ℝ :=
  ⟨v.1 / Real.sqrt (v.1 * v.1 + v.2 * v.2),
   v.2 / Real.sqrt (v.1 * v.1 + v.2 * v.2)⟩

/-- Source `Matrix2D.eigenvector(lambda)`: with `a = this.a - lambda`,
`d = this.d - lambda` (the source's locals, inlined), picks
`(vx, vy) = (-b, a)` if `|b| > 1e-10`, else `(-d, c)` if `|c| > 1e-10`,
else the fallback `(1, 0)`, and normalizes. -/
noncomputable def Matrix2D.eigenvector (m : Matrix2D ℝ) (lambda : ℝ) :
    Vec2 ℝ :=
  normalizeVec
    (if |m.b| > 1 / 10 ^ 10 then (-m.b, m.a - lambda)
     else if |m.c| > 1 / 10 ^ 10 then (-(m.d - lambda), m.c)
     else (1, 0))

/-- The result shape of `Matrix2D.getEigenvectors`:
`{v1, v2, lambda1, lambda2}`. -/
structure Eigenvectors where
  v1 : Vec2 ℝ
  v2 : Vec2 ℝ
  lambda1 : ℝ
  lambda2 : ℝ

/-- Source `Matrix2D.getEigenvectors()`: `null` when the eigenvalues are
complex, else the two eigenvectors paired with the real eigenvalues. -/
noncomputable def Matrix2D.getEigenvectors (m : Matrix2D ℝ) :
    Option Eigenvectors :=
  if (m.eigenvalues).isComplex then none
  else
    some ⟨m.eigenvector (m.eigenvalues).lambda1.real,
          m.eigenvector (m.eigenvalues).lambda2.real,
          (m.eigenvalues).lambda1.real,
          (m.eigenvalues).lambda2.real⟩

/-- The decomposition fields of the `DiagonalizationApp` object: `P`, `D`,
`Pinv` (a matrix or `null`) and `isDiagonalizable`. -/
structure DiagState (α : Type) where
  P : Matrix2D α
  D : Matrix2D α
  Pinv : Option (Matrix2D α)
  isDiagonalizable : Bool
deriving DecidableEq

/-- The constructor's initial field values (source lines 19–22): `P`, `D`,
`Pinv` all identity and `isDiagonalizable = false`. -/
noncomputable def initState : DiagState ℝ :=
  ⟨Matrix2D.identity, Matrix2D.identity, some Matrix2D.identity, false⟩

/-- Source `DiagonalizationApp.decompose()` as a state transformer on the
fields of `DiagState`, taking the previous field values and the target
matrix `A`.  When `getEigenvectors` is `null` or the eigenvalues are
complex it returns with the state untouched (the source's early `return`);
otherwise it stores `P` (eigenvectors as columns), `D` (eigenvalues on the
diagonal) and `Pinv = P.inverse()`, resetting `isDiagonalizable` to false
when that inverse is `null`. -/
noncomputable def decompose (st : DiagState ℝ) (A : Matrix2D ℝ) :
    DiagState ℝ :=
  match A.getEigenvectors with
  | none => st
  | some evec =>
    if (A.eigenvalues).isComplex then st
    else
      let P : Matrix2D ℝ := ⟨evec.v1.x, evec.v2.x, evec.v1.y, evec.v2.y⟩
      let D : Matrix2D ℝ :=
        ⟨(A.eigenvalues).lambda1.real, 0, 0, (A.eigenvalues).lambda2.real⟩
      match P.inverse with
      | none => ⟨P, D, none, false⟩
      | some Pi => ⟨P, D, some Pi, true⟩

/-- Source `DiagonalizationApp.getCurrentMatrix()`: identity when not
diagonalizable, else the three-stage interpolation
`I → P⁻¹ → P⁻¹D → P⁻¹DP` driven by `progress` (the `none` branch of
`Pinv` is unreachable under `decompose`'s invariant; the JavaScript would
fault on the `null` there). -/
def getCurrentMatrix (st : DiagState α) (progress : α) : Matrix2D α :=
  if st.isDiagonalizable = false then Matrix2D.identity
  else
    match st.Pinv with
    | none => Matrix2D.identity
    | some Pi =>
      if progress < 33 / 100 then
        Matrix2D.lerp Matrix2D.identity Pi (progress / (33 / 100))
      else if progress < 67 / 100 then
        Matrix2D.lerp Pi (Pi.multiply st.D)
          ((progress - 33 / 100) / (34 / 100))
      else
        Matrix2D.lerp (Pi.multiply st.D) ((Pi.multiply st.D).multiply st.P)
          ((progress - 67 / 100) / (33 / 100))

/-- A JavaScript number as produced by `Number(string)`: finite (modelled
as a rational), `NaN`, or a signed infinity. -/
inductive JSNum where
  | num (q : ℚ)
  | nan
  | inf
  | neginf
deriving DecidableEq

/-- JavaScript `isNaN` on a `JSNum` value. -/
def JSNum.isNaN : JSNum → Bool
  | .nan => true
  | _ => false

/-- Whether a `JSNum` is a finite number (JavaScript `Number.isFinite`). -/
def JSNum.isFinite : JSNum → Bool
  | .num _ => true
  | _ => false

/-- JavaScript `String.prototype.split(sep)` on a list of characters, for
a one-character separator: the chunks between occurrences of `sep`. -/
def splitOnSep (sep : Char) : List Char → List (List Char)
  | [] => [[]]
  | ch :: rest =>
    if ch = sep then [] :: splitOnSep sep rest
    else
      match splitOnSep sep rest with
      | [] => [[ch]]
      | chunk :: chunks => (ch :: chunk) :: chunks

/-- Whitespace as trimmed by the ECMAScript `Number(string)` conversion
(the forms that can occur in a URL query value). -/
def isSpaceChar (ch : Char) : Bool :=
  ch == ' ' || ch == '\t' || ch == '\n' || ch == '\r'

/-- Leading- and trailing-whitespace trimming of `Number(string)`. -/
def trimChars (s : List Char) : List Char :=
  ((s.dropWhile isSpaceChar).reverse.dropWhile isSpaceChar).reverse

/-- Decimal-digit accumulator for `Number(string)`: folds a digit run into
a natural number, `none` on any non-digit character. -/
def digitsToNat (acc : ℕ) : List Char → Option ℕ
  | [] => some acc
  | ch :: rest =>
    if ch.isDigit then digitsToNat (acc * 10 + (ch.toNat - 48)) rest
    else none

/-- Modelled from ECMAScript: the unsigned decimal part of
`Number(string)` — digits with an optional single decimal point and at
least one character present on some side (`1`, `1.5`, `.5`, `1.`);
exponent and hex forms are outside this model and yield `none`. -/
def parseUnsignedDec (s : List Char) : Option ℚ :=
  match splitOnSep '.' s with
  | [ip] =>
    if ip = [] then none
    else (digitsToNat 0 ip).map (fun n => (n : ℚ))
  | [ip, fp] =>
    if ip = [] ∧ fp = [] then none
    else
      match digitsToNat 0 ip, digitsToNat 0 fp with
      | some n, some f => some ((n : ℚ) + (f : ℚ) / 10 ^ fp.length)
      | _, _ => none
  | _ => none

/-- The characters of the word recognized by `Number` as infinity. -/
def infinityChars : List Char :=
  ['I', 'n', 'f', 'i', 'n', 'i', 't', 'y']

/-- Modelled from ECMAScript: `Number(string)` as exercised by
`parseMatrixFromURL` — trims whitespace, maps the empty string to `0`,
recognizes optionally signed `Infinity` and optionally signed decimal
literals, and yields `NaN` otherwise. -/
def jsNumber (s : List Char) : JSNum :=
  let t := trimChars s
  if t = [] then .num 0
  else if t = infinityChars ∨ t = '+' :: infinityChars then .inf
  else if t = '-' :: infinityChars then .neginf
  else
    match t with
    | '+' :: rest =>
      match parseUnsignedDec rest with
      | some q => .num q
      | none => .nan
    | '-' :: rest =>
      match parseUnsignedDec rest with
      | some q => .num (-q)
      | none => .nan
    | _ =>
      match parseUnsignedDec t with
      | some q => .num q
      | none => .nan

/-- Source `DiagonalizationApp.parseMatrixFromURL()` (lines 45–55): takes
the value of the `matrix` query parameter (`none` models an absent
parameter; the empty string is falsy in the source's `if (matrixStr)`),
splits it on commas, converts each chunk with `Number`, and returns the
four values when there are exactly four and none is `NaN`; otherwise
`none` (the source's `null`). -/
def parseMatrixFromURL (matrixStr : Option (List Char)) :
    Option (JSNum × JSNum × JSNum × JSNum) :=
  match matrixStr with
  | none => none
  | some s =>
    if s = [] then none
    else
      match (splitOnSep ',' s).map jsNumber with
      | [w0, w1, w2, w3] =>
        if !w0.isNaN && !w1.isNaN && !w2.isNaN && !w3.isNaN then
          some (w0, w1, w2, w3)
        else none
      | _ => none

/-- Source line 25: `this.parseMatrixFromURL() || new Matrix2D(2, 1, 1, 2)`
— the target-matrix entries the engine receives. -/
def targetMatrixOf (matrixStr : Option (List Char)) :
    JSNum × JSNum × JSNum × JSNum :=
  (parseMatrixFromURL matrixStr).getD (.num 2, .num 1, .num 1, .num 2)

/-- C7: for all matrices `M`, `M1`, `M2` and every parameter `t`,
`lerp(M, M, t) = M`, `lerp(M1, M2, 0) = M1` and `lerp(M1, M2, 1) = M2`,
exactly. -/
theorem C7_lerp_exact_identities (M M1 M2 : Matrix2D α) (t : α) :
    Matrix2D.lerp M M t = M ∧
    Matrix2D.lerp M1 M2 0 = M1 ∧
    Matrix2D.lerp M1 M2 1 = M2 := by
  refine ⟨?_, ?_, ?_⟩ <;> ext <;> simp [Matrix2D.lerp]

/-- C10: for all matrices `M` and `N`,
`determinant(M.multiply(N)) = determinant(M) * determinant(N)` exactly. -/
theorem C10_determinant_multiplicative (M N : Matrix2D α) :
    (M.multiply N).determinant = M.determinant * N.determinant := by
  simp only [Matrix2D.multiply, Matrix2D.determinant]
  ring

/-- C4: `inverse()` returns `null` iff `|determinant| < 1e-10`, and whenever
it returns a matrix, `M.multiply(M.inverse())` equals the identity within
`1e-6` per entry (in exact arithmetic it is the identity exactly, so the
tolerance is met). -/
theorem C4_inverse_null_iff_and_product_identity (M : Matrix2D α) :
    (M.inverse = none ↔ |M.determinant| < 1 / 10 ^ 10) ∧
    (∀ Mi : Matrix2D α, M.inverse = some Mi →
      |(M.multiply Mi).a - 1| ≤ 1 / 10 ^ 6 ∧
      |(M.multiply Mi).b| ≤ 1 / 10 ^ 6 ∧
      |(M.multiply Mi).c| ≤ 1 / 10 ^ 6 ∧
      |(M.multiply Mi).d - 1| ≤ 1 / 10 ^ 6) := by
  constructor
  · unfold Matrix2D.inverse
    split
    · simp_all
    · simp_all
  · intro Mi hMi
    unfold Matrix2D.inverse at hMi
    split at hMi
    · exact absurd hMi (by simp)
    · rename_i hdet
      have hd0 : M.a * M.d - M.b * M.c ≠ 0 := by
        intro h0
        refine hdet ?_
        simp [Matrix2D.determinant, h0]
      obtain rfl : Mi = ⟨M.d / M.determinant, -M.b / M.determinant,
          -M.c / M.determinant, M.a / M.determinant⟩ := by
        simpa using hMi.symm
      have hprod : M.multiply ⟨M.d / M.determinant, -M.b / M.determinant,
          -M.c / M.determinant, M.a / M.determinant⟩ = Matrix2D.identity := by
        ext <;> simp only [Matrix2D.multiply, Matrix2D.identity,
          Matrix2D.determinant] <;> field_simp <;> ring
      rw [hprod]
      refine ⟨?_, ?_, ?_, ?_⟩ <;> simp [Matrix2D.identity]

/-- Witness for C4 at the concrete matrix `{2,1,1,2}` over `ℚ`. -/
theorem C4_witness :
    ((⟨2, 1, 1, 2⟩ : Matrix2D ℚ).inverse = none ↔
      |(⟨2, 1, 1, 2⟩ : Matrix2D ℚ).determinant| < 1 / 10 ^ 10) ∧
    (|((⟨2, 1, 1, 2⟩ : Matrix2D ℚ).multiply ⟨2/3, -1/3, -1/3, 2/3⟩).a - 1| ≤ 1 / 10 ^ 6 ∧
     |((⟨2, 1, 1, 2⟩ : Matrix2D ℚ).multiply ⟨2/3, -1/3, -1/3, 2/3⟩).b| ≤ 1 / 10 ^ 6 ∧
     |((⟨2, 1, 1, 2⟩ : Matrix2D ℚ).multiply ⟨2/3, -1/3, -1/3, 2/3⟩).c| ≤ 1 / 10 ^ 6 ∧
     |((⟨2, 1, 1, 2⟩ : Matrix2D ℚ).multiply ⟨2/3, -1/3, -1/3, 2/3⟩).d - 1| ≤ 1 / 10 ^ 6) :=
  ⟨(C4_inverse_null_iff_and_product_identity (⟨2, 1, 1, 2⟩ : Matrix2D ℚ)).1,
   (C4_inverse_null_iff_and_product_identity (⟨2, 1, 1, 2⟩ : Matrix2D ℚ)).2
     ⟨2/3, -1/3, -1/3, 2/3⟩
     (by norm_num [Matrix2D.inverse, Matrix2D.determinant])⟩

/-- C6: when `isComplex` is false, `lambda1.real ≥ lambda2.real` and both
`imag` fields are exactly 0; when the discriminant is negative, the two
eigenvalues form a conjugate pair with shared real part `trace/2` and
imaginary parts `±√(-discriminant)/2`. -/
theorem C6_eigenvalue_ordering_and_conjugacy (M : Matrix2D ℝ) :
    ((M.eigenvalues).isComplex = false →
      (M.eigenvalues).lambda2.real ≤ (M.eigenvalues).lambda1.real ∧
      (M.eigenvalues).lambda1.imag = 0 ∧
      (M.eigenvalues).lambda2.imag = 0) ∧
    (M.trace * M.trace - 4 * M.determinant < 0 →
      (M.eigenvalues).isComplex = true ∧
      (M.eigenvalues).lambda1.real = M.trace / 2 ∧
      (M.eigenvalues).lambda2.real = M.trace / 2 ∧
      (M.eigenvalues).lambda1.imag =
        Real.sqrt (-(M.trace * M.trace - 4 * M.determinant)) / 2 ∧
      (M.eigenvalues).lambda2.imag = -(M.eigenvalues).lambda1.imag) := by
  unfold Matrix2D.eigenvalues
  split
  · rename_i h
    refine ⟨fun hfalse => by simp at hfalse, fun _ => ⟨rfl, rfl, rfl, rfl, rfl⟩⟩
  · rename_i h
    push_neg at h
    refine ⟨fun _ => ⟨?_, rfl, rfl⟩, fun hneg => absurd hneg (not_lt.mpr h)⟩
    have hs := Real.sqrt_nonneg (M.trace * M.trace - 4 * M.determinant)
    linarith

/-- Witness for C6: the real case at the reflection `{1,0,0,-1}` and the
complex case at the rotation `{0,-1,1,0}`. -/
theorem C6_witness :
    (((⟨1, 0, 0, -1⟩ : Matrix2D ℝ).eigenvalues).lambda2.real ≤
        ((⟨1, 0, 0, -1⟩ : Matrix2D ℝ).eigenvalues).lambda1.real ∧
      ((⟨1, 0, 0, -1⟩ : Matrix2D ℝ).eigenvalues).lambda1.imag = 0 ∧
      ((⟨1, 0, 0, -1⟩ : Matrix2D ℝ).eigenvalues).lambda2.imag = 0) ∧
    (((⟨0, -1, 1, 0⟩ : Matrix2D ℝ).eigenvalues).isComplex = true ∧
      ((⟨0, -1, 1, 0⟩ : Matrix2D ℝ).eigenvalues).lambda1.real =
        (⟨0, -1, 1, 0⟩ : Matrix2D ℝ).trace / 2 ∧
      ((⟨0, -1, 1, 0⟩ : Matrix2D ℝ).eigenvalues).lambda2.real =
        (⟨0, -1, 1, 0⟩ : Matrix2D ℝ).trace / 2 ∧
      ((⟨0, -1, 1, 0⟩ : Matrix2D ℝ).eigenvalues).lambda1.imag =
        Real.sqrt (-((⟨0, -1, 1, 0⟩ : Matrix2D ℝ).trace *
          (⟨0, -1, 1, 0⟩ : Matrix2D ℝ).trace -
          4 * (⟨0, -1, 1, 0⟩ : Matrix2D ℝ).determinant)) / 2 ∧
      ((⟨0, -1, 1, 0⟩ : Matrix2D ℝ).eigenvalues).lambda2.imag =
        -((⟨0, -1, 1, 0⟩ : Matrix2D ℝ).eigenvalues).lambda1.imag) :=
  ⟨(C6_eigenvalue_ordering_and_conjugacy (⟨1, 0, 0, -1⟩ : Matrix2D ℝ)).1
      (by norm_num [Matrix2D.eigenvalues, Matrix2D.trace, Matrix2D.determinant]),
   (C6_eigenvalue_ordering_and_conjugacy (⟨0, -1, 1, 0⟩ : Matrix2D ℝ)).2
      (by norm_num [Matrix2D.trace, Matrix2D.determinant])⟩

/-- C2: for every progress in `[0,1]`, `getCurrentMatrix` is identity when
`isDiagonalizable` is false, and otherwise computes exactly the staged
interpolation `lerp(I, Pinv, p/0.33)` for `p < 0.33`,
`lerp(Pinv, Pinv·D, (p-0.33)/0.34)` for `0.33 ≤ p < 0.67`, and
`lerp(Pinv·D, Pinv·D·P, (p-0.67)/0.33)` for `p ≥ 0.67`. -/
theorem C2_staged_interpolation {α : Type} [LinearOrderedField α]
    (st : DiagState α) (p : α) (_h0 : 0 ≤ p) (_h1 : p ≤ 1) :
    (st.isDiagonalizable = false →
      getCurrentMatrix st p = Matrix2D.identity) ∧
    (∀ Pi : Matrix2D α, st.isDiagonalizable = true → st.Pinv = some Pi →
      (p < 33 / 100 →
        getCurrentMatrix st p =
          Matrix2D.lerp Matrix2D.identity Pi (p / (33 / 100))) ∧
      (33 / 100 ≤ p → p < 67 / 100 →
        getCurrentMatrix st p =
          Matrix2D.lerp Pi (Pi.multiply st.D)
            ((p - 33 / 100) / (34 / 100))) ∧
      (67 / 100 ≤ p →
        getCurrentMatrix st p =
          Matrix2D.lerp (Pi.multiply st.D)
            ((Pi.multiply st.D).multiply st.P)
            ((p - 67 / 100) / (33 / 100)))) := by
  constructor
  · intro hfalse
    simp [getCurrentMatrix, hfalse]
  · intro Pi hdiag hpinv
    refine ⟨?_, ?_, ?_⟩
    · intro hlt
      simp [getCurrentMatrix, hdiag, hpinv, hlt]
    · intro hge hlt
      simp [getCurrentMatrix, hdiag, hpinv, not_lt.mpr hge, hlt]
    · intro hge
      have h33 : ¬(p < 33 / 100) :=
        not_lt.mpr (le_trans (by norm_num) hge)
      have h67 : ¬(p < 67 / 100) := not_lt.mpr hge
      simp [getCurrentMatrix, hdiag, hpinv, h33, h67]

/-- Witness for C2 at the state with all matrices identity and
`progress = 1/2` (stage 2), over `ℚ`. -/
theorem C2_witness :
    getCurrentMatrix (⟨Matrix2D.identity, Matrix2D.identity,
        some Matrix2D.identity, true⟩ : DiagState ℚ) (1 / 2) =
      Matrix2D.lerp Matrix2D.identity
        (Matrix2D.identity.multiply Matrix2D.identity)
        ((1 / 2 - 33 / 100) / (34 / 100)) :=
  ((C2_staged_interpolation
      (⟨Matrix2D.identity, Matrix2D.identity,
        some Matrix2D.identity, true⟩ : DiagState ℚ) (1 / 2)
      (by norm_num) (by norm_num)).2
    Matrix2D.identity rfl rfl).2.1 (by norm_num) (by norm_num)

/-- C9: the staged map has no jump at the stage boundaries: at
`progress = 0.33` it returns exactly `Pinv`, agreeing with stage 1's value
at local `t = 0.33/0.33 = 1`, and at `progress = 0.67` it returns exactly
`Pinv·D`, agreeing with stage 2's value at local
`t = (0.67-0.33)/0.34 = 1`. -/
theorem C9_stage_boundary_continuity {α : Type} [LinearOrderedField α]
    (st : DiagState α) (Pi : Matrix2D α)
    (hdiag : st.isDiagonalizable = true) (hpinv : st.Pinv = some Pi) :
    getCurrentMatrix st (33 / 100) = Pi ∧
    Matrix2D.lerp Matrix2D.identity Pi ((33 / 100 : α) / (33 / 100)) = Pi ∧
    getCurrentMatrix st (67 / 100) = Pi.multiply st.D ∧
    Matrix2D.lerp Pi (Pi.multiply st.D)
      (((67 : α) / 100 - 33 / 100) / (34 / 100)) = Pi.multiply st.D := by
  have h1 : ¬((33 : α) / 100 < 33 / 100) := lt_irrefl _
  have h2 : (33 : α) / 100 < 67 / 100 := by norm_num
  have h3 : ¬((67 : α) / 100 < 33 / 100) := by norm_num
  have h4 : ¬((67 : α) / 100 < 67 / 100) := lt_irrefl _
  have h67 : ((67 : α) / 100 - 33 / 100) / (34 / 100) = 1 := by norm_num
  refine ⟨?_, ?_, ?_, ?_⟩
  · simp [getCurrentMatrix, hdiag, hpinv, h1, h2, Matrix2D.lerp]
  · have h33 : ((33 : α) / 100) / (33 / 100) = 1 := by norm_num
    rw [h33]
    ext <;> simp [Matrix2D.lerp]
  · simp [getCurrentMatrix, hdiag, hpinv, h3, h4, Matrix2D.lerp]
  · rw [h67]
    ext <;> simp [Matrix2D.lerp]

/-- Witness for C9 at the state with all matrices identity, over `ℚ`. -/
theorem C9_witness :
    getCurrentMatrix (⟨Matrix2D.identity, Matrix2D.identity,
        some Matrix2D.identity, true⟩ : DiagState ℚ) (33 / 100) =
      Matrix2D.identity ∧
    Matrix2D.lerp Matrix2D.identity Matrix2D.identity
      ((33 / 100 : ℚ) / (33 / 100)) = Matrix2D.identity ∧
    getCurrentMatrix (⟨Matrix2D.identity, Matrix2D.identity,
        some Matrix2D.identity, true⟩ : DiagState ℚ) (67 / 100) =
      Matrix2D.identity.multiply Matrix2D.identity ∧
    Matrix2D.lerp Matrix2D.identity
      (Matrix2D.identity.multiply Matrix2D.identity)
      (((67 : ℚ) / 100 - 33 / 100) / (34 / 100)) =
      Matrix2D.identity.multiply Matrix2D.identity :=
  C9_stage_boundary_continuity
    (⟨Matrix2D.identity, Matrix2D.identity,
      some Matrix2D.identity, true⟩ : DiagState ℚ)
    Matrix2D.identity rfl rfl

/-- Square root of 4, used when evaluating `eigenvalues` concretely. -/
lemma sqrt_four : Real.sqrt 4 = 2 := by
  rw [show (4 : ℝ) = 2 ^ 2 by norm_num]
  exact Real.sqrt_sq (by norm_num)

/-- Both fields of `eigenvalues` satisfy the characteristic equation
`λ² - trace·λ + det = 0` when the discriminant is nonnegative. -/
lemma eigenvalues_are_roots (M : Matrix2D ℝ)
    (h : ¬(M.trace * M.trace - 4 * M.determinant < 0)) :
    (M.eigenvalues).lambda1.real * (M.eigenvalues).lambda1.real -
        M.trace * (M.eigenvalues).lambda1.real + M.determinant = 0 ∧
    (M.eigenvalues).lambda2.real * (M.eigenvalues).lambda2.real -
        M.trace * (M.eigenvalues).lambda2.real + M.determinant = 0 := by
  have hnn : 0 ≤ M.trace * M.trace - 4 * M.determinant := not_lt.mp h
  have hs : Real.sqrt (M.trace * M.trace - 4 * M.determinant) *
      Real.sqrt (M.trace * M.trace - 4 * M.determinant) =
      M.trace * M.trace - 4 * M.determinant := Real.mul_self_sqrt hnn
  unfold Matrix2D.eigenvalues
  rw [if_neg h]
  refine ⟨?_, ?_⟩ <;> dsimp only <;> linear_combination hs / 4

/-- When `eigenvector` takes one of its two generic branches (an
off-diagonal entry above the `1e-10` threshold) and `lam` is a root of the
characteristic equation, the returned vector satisfies `A·v = λ·v`
exactly. -/
lemma eigenvector_roundtrip_exact (M : Matrix2D ℝ) (lam : ℝ)
    (hroot : lam * lam - M.trace * lam + M.determinant = 0)
    (hbc : |M.b| > 1 / 10 ^ 10 ∨ |M.c| > 1 / 10 ^ 10) :
    (M.transform (M.eigenvector lam).x (M.eigenvector lam).y).x =
      lam * (M.eigenvector lam).x ∧
    (M.transform (M.eigenvector lam).x (M.eigenvector lam).y).y =
      lam * (M.eigenvector lam).y := by
  have hchar : lam * lam - (M.a + M.d) * lam +
      (M.a * M.d - M.b * M.c) = 0 := by
    simpa [Matrix2D.trace, Matrix2D.determinant] using hroot
  unfold Matrix2D.eigenvector normalizeVec Matrix2D.transform
  by_cases hb : |M.b| > 1 / 10 ^ 10
  · rw [if_pos hb]
    dsimp only
    constructor
    · ring
    · linear_combination
        (Real.sqrt (-M.b * -M.b + (M.a - lam) * (M.a - lam)))⁻¹ * hchar
  · rcases hbc with hb' | hc
    · exact absurd hb' hb
    · rw [if_neg hb, if_pos hc]
      dsimp only
      constructor
      · linear_combination
          -(Real.sqrt (-(M.d - lam) * -(M.d - lam) + M.c * M.c))⁻¹ * hchar
      · ring

/-- C5 (amended): the eigenvalue/eigenvector round-trip
`M.transform(v) ≈ λ·v` (within `1e-6` per component) holds for both pairs
returned by `getEigenvectors` whenever at least one off-diagonal entry
exceeds the `1e-10` threshold, i.e. whenever the `(1,0)` fallback branch
of `eigenvector` is not taken; in that generic case it is exact. -/
theorem C5_roundtrip_generic_branches (M : Matrix2D ℝ) (evec : Eigenvectors)
    (h : M.getEigenvectors = some evec)
    (hbc : |M.b| > 1 / 10 ^ 10 ∨ |M.c| > 1 / 10 ^ 10) :
    |(M.transform evec.v1.x evec.v1.y).x - evec.lambda1 * evec.v1.x| ≤
      1 / 10 ^ 6 ∧
    |(M.transform evec.v1.x evec.v1.y).y - evec.lambda1 * evec.v1.y| ≤
      1 / 10 ^ 6 ∧
    |(M.transform evec.v2.x evec.v2.y).x - evec.lambda2 * evec.v2.x| ≤
      1 / 10 ^ 6 ∧
    |(M.transform evec.v2.x evec.v2.y).y - evec.lambda2 * evec.v2.y| ≤
      1 / 10 ^ 6 := by
  unfold Matrix2D.getEigenvectors at h
  split at h
  · exact absurd h (by simp)
  · rename_i hcx
    have hdisc : ¬(M.trace * M.trace - 4 * M.determinant < 0) := by
      intro hlt
      refine hcx ?_
      unfold Matrix2D.eigenvalues
      rw [if_pos hlt]
    obtain ⟨hr1, hr2⟩ := eigenvalues_are_roots M hdisc
    obtain rfl : evec = ⟨M.eigenvector (M.eigenvalues).lambda1.real,
        M.eigenvector (M.eigenvalues).lambda2.real,
        (M.eigenvalues).lambda1.real, (M.eigenvalues).lambda2.real⟩ :=
      (Option.some_inj.mp h).symm
    obtain ⟨e1x, e1y⟩ := eigenvector_roundtrip_exact M _ hr1 hbc
    obtain ⟨e2x, e2y⟩ := eigenvector_roundtrip_exact M _ hr2 hbc
    dsimp only
    refine ⟨?_, ?_, ?_, ?_⟩
    · rw [e1x, sub_self, abs_zero]; norm_num
    · rw [e1y, sub_self, abs_zero]; norm_num
    · rw [e2x, sub_self, abs_zero]; norm_num
    · rw [e2y, sub_self, abs_zero]; norm_num

/-- Concrete evaluation: the eigenvalues of the squeeze matrix `{2,1,1,2}`
are 3 and 1. -/
lemma eig_squeeze :
    (⟨2, 1, 1, 2⟩ : Matrix2D ℝ).eigenvalues = ⟨⟨3, 0⟩, ⟨1, 0⟩, false⟩ := by
  unfold Matrix2D.eigenvalues
  norm_num [Matrix2D.trace, Matrix2D.determinant, sqrt_four]

/-- Concrete evaluation: the eigenvector of `{2,1,1,2}` for eigenvalue 3. -/
lemma eigvec_squeeze_three :
    (⟨2, 1, 1, 2⟩ : Matrix2D ℝ).eigenvector 3 =
      ⟨-1 / Real.sqrt 2, -1 / Real.sqrt 2⟩ := by
  unfold Matrix2D.eigenvector normalizeVec
  rw [if_pos (by norm_num : |(⟨2, 1, 1, 2⟩ : Matrix2D ℝ).b| > 1 / 10 ^ 10)]
  norm_num

/-- Concrete evaluation: the eigenvector of `{2,1,1,2}` for eigenvalue 1. -/
lemma eigvec_squeeze_one :
    (⟨2, 1, 1, 2⟩ : Matrix2D ℝ).eigenvector 1 =
      ⟨-1 / Real.sqrt 2, 1 / Real.sqrt 2⟩ := by
  unfold Matrix2D.eigenvector normalizeVec
  rw [if_pos (by norm_num : |(⟨2, 1, 1, 2⟩ : Matrix2D ℝ).b| > 1 / 10 ^ 10)]
  norm_num

/-- Concrete evaluation: `getEigenvectors` on the squeeze matrix. -/
lemma gev_squeeze :
    (⟨2, 1, 1, 2⟩ : Matrix2D ℝ).getEigenvectors =
      some ⟨⟨-1 / Real.sqrt 2, -1 / Real.sqrt 2⟩,
            ⟨-1 / Real.sqrt 2, 1 / Real.sqrt 2⟩, 3, 1⟩ := by
  unfold Matrix2D.getEigenvectors
  rw [eig_squeeze]
  norm_num [eigvec_squeeze_three, eigvec_squeeze_one]

/-- Witness for C5 at the squeeze matrix `{2,1,1,2}`, whose eigenvectors
come from the generic `|b| > 1e-10` branch. -/
theorem C5_witness :
    |((⟨2, 1, 1, 2⟩ : Matrix2D ℝ).transform (-1 / Real.sqrt 2)
        (-1 / Real.sqrt 2)).x - 3 * (-1 / Real.sqrt 2)| ≤ 1 / 10 ^ 6 ∧
    |((⟨2, 1, 1, 2⟩ : Matrix2D ℝ).transform (-1 / Real.sqrt 2)
        (-1 / Real.sqrt 2)).y - 3 * (-1 / Real.sqrt 2)| ≤ 1 / 10 ^ 6 ∧
    |((⟨2, 1, 1, 2⟩ : Matrix2D ℝ).transform (-1 / Real.sqrt 2)
        (1 / Real.sqrt 2)).x - 1 * (-1 / Real.sqrt 2)| ≤ 1 / 10 ^ 6 ∧
    |((⟨2, 1, 1, 2⟩ : Matrix2D ℝ).transform (-1 / Real.sqrt 2)
        (1 / Real.sqrt 2)).y - 1 * (1 / Real.sqrt 2)| ≤ 1 / 10 ^ 6 :=
  C5_roundtrip_generic_branches ⟨2, 1, 1, 2⟩
    ⟨⟨-1 / Real.sqrt 2, -1 / Real.sqrt 2⟩,
     ⟨-1 / Real.sqrt 2, 1 / Real.sqrt 2⟩, 3, 1⟩
    gev_squeeze (Or.inl (by norm_num))

/-- Concrete evaluation: the eigenvalues of the reflection `{1,0,0,-1}`
are 1 and -1. -/
lemma eig_reflect :
    (⟨1, 0, 0, -1⟩ : Matrix2D ℝ).eigenvalues = ⟨⟨1, 0⟩, ⟨-1, 0⟩, false⟩ := by
  unfold Matrix2D.eigenvalues
  norm_num [Matrix2D.trace, Matrix2D.determinant, sqrt_four]

/-- Concrete evaluation: on the reflection both off-diagonal entries are
zero, so `eigenvector` takes the `(1, 0)` fallback for every `lam`. -/
lemma eigvec_reflect (lam : ℝ) :
    (⟨1, 0, 0, -1⟩ : Matrix2D ℝ).eigenvector lam = ⟨1, 0⟩ := by
  unfold Matrix2D.eigenvector normalizeVec
  rw [if_neg (by norm_num), if_neg (by norm_num)]
  norm_num

/-- Concrete evaluation: `getEigenvectors` on the reflection returns the
fallback vector `(1,0)` for both eigenvalues. -/
lemma gev_reflect :
    (⟨1, 0, 0, -1⟩ : Matrix2D ℝ).getEigenvectors =
      some ⟨⟨1, 0⟩, ⟨1, 0⟩, 1, -1⟩ := by
  unfold Matrix2D.getEigenvectors
  rw [eig_reflect]
  norm_num [eigvec_reflect]

/-- Counterexample to C5 as stated: on the reflection `{1,0,0,-1}`,
`getEigenvectors` is non-null, but the second returned pair
`(v2, λ2) = ((1,0), -1)` fails the round-trip: the transform gives `(1,0)`
while `λ2·v2 = (-1,0)`, an error of 2 in the x component. -/
theorem C5_fallback_counterexample :
    (⟨1, 0, 0, -1⟩ : Matrix2D ℝ).getEigenvectors =
      some ⟨⟨1, 0⟩, ⟨1, 0⟩, 1, -1⟩ ∧
    ¬(|((⟨1, 0, 0, -1⟩ : Matrix2D ℝ).transform 1 0).x - (-1) * 1| ≤
        1 / 10 ^ 6) := by
  refine ⟨gev_reflect, ?_⟩
  norm_num [Matrix2D.transform]

/-- Multiplying `√2` by itself gives 2. -/
lemma sqrt_two_mul_self : Real.sqrt 2 * Real.sqrt 2 = 2 :=
  Real.mul_self_sqrt (by norm_num)

/-- The square root of 2 is positive. -/
lemma sqrt_two_pos : 0 < Real.sqrt 2 := Real.sqrt_pos.mpr (by norm_num)

/-- The square root of 2 is at most 2. -/
lemma sqrt_two_le_two : Real.sqrt 2 ≤ 2 := by
  calc Real.sqrt 2 ≤ Real.sqrt 4 := Real.sqrt_le_sqrt (by norm_num)
  _ = 2 := sqrt_four

/-- Interpolating with parameter 0 returns the first endpoint. -/
lemma Matrix2D.lerp_zero (m1 m2 : Matrix2D α) :
    Matrix2D.lerp m1 m2 0 = m1 := by
  ext <;> simp [Matrix2D.lerp]

/-- Interpolating with parameter 1 returns the second endpoint. -/
lemma Matrix2D.lerp_one (m1 m2 : Matrix2D α) :
    Matrix2D.lerp m1 m2 1 = m2 := by
  ext <;> simp [Matrix2D.lerp]

/-- Concrete evaluation: the eigenvector matrix `P` built for the squeeze
matrix has determinant -1. -/
lemma det_P_squeeze :
    (⟨-1 / Real.sqrt 2, -1 / Real.sqrt 2, -1 / Real.sqrt 2,
      1 / Real.sqrt 2⟩ : Matrix2D ℝ).determinant = -1 := by
  have hs := sqrt_two_mul_self
  have hne : Real.sqrt 2 ≠ 0 := ne_of_gt sqrt_two_pos
  unfold Matrix2D.determinant
  dsimp only
  field_simp
  linarith

/-- Concrete evaluation: the inverse of the squeeze eigenvector matrix is
the matrix itself. -/
lemma inv_P_squeeze :
    (⟨-1 / Real.sqrt 2, -1 / Real.sqrt 2, -1 / Real.sqrt 2,
      1 / Real.sqrt 2⟩ : Matrix2D ℝ).inverse =
      some ⟨-1 / Real.sqrt 2, -1 / Real.sqrt 2, -1 / Real.sqrt 2,
            1 / Real.sqrt 2⟩ := by
  unfold Matrix2D.inverse
  rw [det_P_squeeze]
  rw [if_neg (by norm_num)]
  refine congrArg some ?_
  ext <;> dsimp only <;> ring

/-- Concrete evaluation: `decompose` on the squeeze matrix `{2,1,1,2}`
succeeds, with `P = Pinv` (the eigenvector matrix is involutive). -/
lemma decompose_squeeze :
    decompose initState ⟨2, 1, 1, 2⟩ =
      ⟨⟨-1 / Real.sqrt 2, -1 / Real.sqrt 2, -1 / Real.sqrt 2,
        1 / Real.sqrt 2⟩,
       ⟨3, 0, 0, 1⟩,
       some ⟨-1 / Real.sqrt 2, -1 / Real.sqrt 2, -1 / Real.sqrt 2,
             1 / Real.sqrt 2⟩,
       true⟩ := by
  unfold decompose
  rw [gev_squeeze, eig_squeeze]
  simp only [inv_P_squeeze]
  simp

/-- C1 (amended): for every matrix that `decompose` marks diagonalizable,
`getCurrentMatrix` returns the identity exactly at `progress = 0` and the
stage-3 product `Pinv·D·P` exactly at `progress = 1`; this product need
not equal the original matrix, but for the default squeeze matrix
`{2,1,1,2}` (whose eigenvector matrix is symmetric and involutive) it does
reconstruct the original matrix exactly. -/
theorem C1_progress_boundaries :
    (∀ A Pi : Matrix2D ℝ,
      (decompose initState A).isDiagonalizable = true →
      (decompose initState A).Pinv = some Pi →
      getCurrentMatrix (decompose initState A) 0 = Matrix2D.identity ∧
      getCurrentMatrix (decompose initState A) 1 =
        (Pi.multiply (decompose initState A).D).multiply
          (decompose initState A).P) ∧
    getCurrentMatrix (decompose initState ⟨2, 1, 1, 2⟩) 1 =
      ⟨2, 1, 1, 2⟩ := by
  have hgen : ∀ A Pi : Matrix2D ℝ,
      (decompose initState A).isDiagonalizable = true →
      (decompose initState A).Pinv = some Pi →
      getCurrentMatrix (decompose initState A) 0 = Matrix2D.identity ∧
      getCurrentMatrix (decompose initState A) 1 =
        (Pi.multiply (decompose initState A).D).multiply
          (decompose initState A).P := by
    intro A Pi hdiag hpinv
    constructor
    · have h0 : (0 : ℝ) < 33 / 100 := by norm_num
      simp [getCurrentMatrix, hdiag, hpinv, h0, Matrix2D.lerp_zero]
    · have h33 : ¬((1 : ℝ) < 33 / 100) := by norm_num
      have h67 : ¬((1 : ℝ) < 67 / 100) := by norm_num
      have ht : ((1 : ℝ) - 67 / 100) / (33 / 100) = 1 := by norm_num
      simp only [getCurrentMatrix, hdiag, hpinv, h33, h67, if_false,
        Bool.true_eq_false, ht, Matrix2D.lerp_one]
  refine ⟨hgen, ?_⟩
  obtain ⟨_, h1⟩ := hgen ⟨2, 1, 1, 2⟩
    ⟨-1 / Real.sqrt 2, -1 / Real.sqrt 2, -1 / Real.sqrt 2, 1 / Real.sqrt 2⟩
    (by rw [decompose_squeeze]) (by rw [decompose_squeeze])
  rw [h1, decompose_squeeze]
  have hs := sqrt_two_mul_self
  have hne : Real.sqrt 2 ≠ 0 := ne_of_gt sqrt_two_pos
  ext <;> dsimp only [Matrix2D.multiply] <;> field_simp <;> linarith

/-- Witness for C1 at the squeeze matrix `{2,1,1,2}` (diagonalizable, with
hypotheses discharged by the concrete `decompose` evaluation). -/
theorem C1_witness :
    getCurrentMatrix (decompose initState ⟨2, 1, 1, 2⟩) 0 =
      Matrix2D.identity ∧
    getCurrentMatrix (decompose initState ⟨2, 1, 1, 2⟩) 1 =
      (((⟨-1 / Real.sqrt 2, -1 / Real.sqrt 2, -1 / Real.sqrt 2,
          1 / Real.sqrt 2⟩ : Matrix2D ℝ).multiply
        (decompose initState ⟨2, 1, 1, 2⟩).D).multiply
        (decompose initState ⟨2, 1, 1, 2⟩).P) :=
  C1_progress_boundaries.1 ⟨2, 1, 1, 2⟩
    ⟨-1 / Real.sqrt 2, -1 / Real.sqrt 2, -1 / Real.sqrt 2, 1 / Real.sqrt 2⟩
    (by rw [decompose_squeeze]) (by rw [decompose_squeeze])

/-- Concrete evaluation: the eigenvalues of `{1,1,0,2}` are 2 and 1. -/
lemma eig_upper :
    (⟨1, 1, 0, 2⟩ : Matrix2D ℝ).eigenvalues = ⟨⟨2, 0⟩, ⟨1, 0⟩, false⟩ := by
  unfold Matrix2D.eigenvalues
  norm_num [Matrix2D.trace, Matrix2D.determinant]

/-- Concrete evaluation: the eigenvector of `{1,1,0,2}` for eigenvalue 2. -/
lemma eigvec_upper_two :
    (⟨1, 1, 0, 2⟩ : Matrix2D ℝ).eigenvector 2 =
      ⟨-1 / Real.sqrt 2, -1 / Real.sqrt 2⟩ := by
  unfold Matrix2D.eigenvector normalizeVec
  rw [if_pos (by norm_num : |(⟨1, 1, 0, 2⟩ : Matrix2D ℝ).b| > 1 / 10 ^ 10)]
  norm_num

/-- Concrete evaluation: the eigenvector of `{1,1,0,2}` for eigenvalue 1. -/
lemma eigvec_upper_one :
    (⟨1, 1, 0, 2⟩ : Matrix2D ℝ).eigenvector 1 = ⟨-1, 0⟩ := by
  unfold Matrix2D.eigenvector normalizeVec
  rw [if_pos (by norm_num : |(⟨1, 1, 0, 2⟩ : Matrix2D ℝ).b| > 1 / 10 ^ 10)]
  norm_num

/-- Concrete evaluation: `getEigenvectors` on `{1,1,0,2}`. -/
lemma gev_upper :
    (⟨1, 1, 0, 2⟩ : Matrix2D ℝ).getEigenvectors =
      some ⟨⟨-1 / Real.sqrt 2, -1 / Real.sqrt 2⟩, ⟨-1, 0⟩, 2, 1⟩ := by
  unfold Matrix2D.getEigenvectors
  rw [eig_upper]
  norm_num [eigvec_upper_two, eigvec_upper_one]

/-- Concrete evaluation: the inverse of the eigenvector matrix of
`{1,1,0,2}`. -/
lemma inv_P_upper :
    (⟨-1 / Real.sqrt 2, -1, -1 / Real.sqrt 2, 0⟩ : Matrix2D ℝ).inverse =
      some ⟨0, -Real.sqrt 2, -1, 1⟩ := by
  have hs := sqrt_two_mul_self
  have hne : Real.sqrt 2 ≠ 0 := ne_of_gt sqrt_two_pos
  have hdet : (⟨-1 / Real.sqrt 2, -1, -1 / Real.sqrt 2, 0⟩ :
      Matrix2D ℝ).determinant = -1 / Real.sqrt 2 := by
    unfold Matrix2D.determinant
    dsimp only
    field_simp
  have habs : ¬(|(-1 : ℝ) / Real.sqrt 2| < 1 / 10 ^ 10) := by
    rw [abs_div, abs_neg, abs_one, abs_of_pos sqrt_two_pos]
    rw [not_lt]
    rw [div_le_div_iff₀ (by norm_num) sqrt_two_pos]
    nlinarith [sqrt_two_le_two]
  unfold Matrix2D.inverse
  rw [hdet, if_neg habs]
  refine congrArg some ?_
  ext <;> dsimp only <;> field_simp

/-- Concrete evaluation: `decompose` on `{1,1,0,2}` succeeds. -/
lemma decompose_upper :
    decompose initState ⟨1, 1, 0, 2⟩ =
      ⟨⟨-1 / Real.sqrt 2, -1, -1 / Real.sqrt 2, 0⟩,
       ⟨2, 0, 0, 1⟩,
       some ⟨0, -Real.sqrt 2, -1, 1⟩,
       true⟩ := by
  unfold decompose
  rw [gev_upper, eig_upper]
  simp only [inv_P_upper]
  simp

/-- Counterexample to C1 as stated: `{1,1,0,2}` is marked diagonalizable,
yet at `progress = 1` the staged product `Pinv·D·P` has `b`-entry 0 while
the original matrix has `b = 1` — the final frame does not reconstruct the
original matrix within the `1e-6` tolerance. -/
theorem C1_progress_one_counterexample :
    (decompose initState ⟨1, 1, 0, 2⟩).isDiagonalizable = true ∧
    ¬(|(getCurrentMatrix (decompose initState ⟨1, 1, 0, 2⟩) 1).b -
        (⟨1, 1, 0, 2⟩ : Matrix2D ℝ).b| ≤ 1 / 10 ^ 6) := by
  rw [decompose_upper]
  refine ⟨rfl, ?_⟩
  have h33 : ¬((1 : ℝ) < 33 / 100) := by norm_num
  have h67 : ¬((1 : ℝ) < 67 / 100) := by norm_num
  have ht : ((1 : ℝ) - 67 / 100) / (33 / 100) = 1 := by norm_num
  simp only [getCurrentMatrix, h33, h67, if_false, ht, Matrix2D.lerp_one]
  norm_num [Matrix2D.multiply]

/-- Concrete evaluation: the eigenvalues of the shear `{1,1,0,1}` are the
repeated root 1. -/
lemma eig_shear :
    (⟨1, 1, 0, 1⟩ : Matrix2D ℝ).eigenvalues = ⟨⟨1, 0⟩, ⟨1, 0⟩, false⟩ := by
  unfold Matrix2D.eigenvalues
  norm_num [Matrix2D.trace, Matrix2D.determinant]

/-- Concrete evaluation: the eigenvector of the shear for eigenvalue 1. -/
lemma eigvec_shear :
    (⟨1, 1, 0, 1⟩ : Matrix2D ℝ).eigenvector 1 = ⟨-1, 0⟩ := by
  unfold Matrix2D.eigenvector normalizeVec
  rw [if_pos (by norm_num : |(⟨1, 1, 0, 1⟩ : Matrix2D ℝ).b| > 1 / 10 ^ 10)]
  norm_num

/-- Concrete evaluation: `getEigenvectors` on the shear returns the same
direction twice. -/
lemma gev_shear :
    (⟨1, 1, 0, 1⟩ : Matrix2D ℝ).getEigenvectors =
      some ⟨⟨-1, 0⟩, ⟨-1, 0⟩, 1, 1⟩ := by
  unfold Matrix2D.getEigenvectors
  rw [eig_shear]
  norm_num [eigvec_shear]

/-- Concrete evaluation: the eigenvector matrix of the shear is singular,
so its inverse is `null`. -/
lemma inv_P_shear :
    (⟨-1, -1, 0, 0⟩ : Matrix2D ℝ).inverse = none := by
  unfold Matrix2D.inverse
  rw [if_pos (by norm_num [Matrix2D.determinant])]

/-- Concrete evaluation: `decompose` on the shear `{1,1,0,1}` fails at the
`P.inverse()` step but stores the computed `P` and `D`. -/
lemma decompose_shear :
    decompose initState ⟨1, 1, 0, 1⟩ =
      ⟨⟨-1, -1, 0, 0⟩, ⟨1, 0, 0, 1⟩, none, false⟩ := by
  unfold decompose
  rw [gev_shear, eig_shear]
  simp only [inv_P_shear]
  simp

/-- C3 (amended): when the eigenvalues are complex, `decompose` returns
with every field untouched (so from the constructor's initial state
`isDiagonalizable` stays false and `P`, `D`, `Pinv` stay identity); when
the eigenvector matrix `P` is singular, `decompose` sets
`isDiagonalizable = false` and `Pinv = null`, but the computed `P` and `D`
are stored on the object, not discarded. -/
theorem C3_failure_paths (A : Matrix2D ℝ) :
    (∀ st : DiagState ℝ, (A.eigenvalues).isComplex = true →
      decompose st A = st) ∧
    ((A.eigenvalues).isComplex = true →
      (decompose initState A).isDiagonalizable = false) ∧
    (∀ st : DiagState ℝ, ∀ evec : Eigenvectors,
      A.getEigenvectors = some evec →
      (⟨evec.v1.x, evec.v2.x, evec.v1.y, evec.v2.y⟩ :
        Matrix2D ℝ).inverse = none →
      decompose st A =
        ⟨⟨evec.v1.x, evec.v2.x, evec.v1.y, evec.v2.y⟩,
         ⟨(A.eigenvalues).lambda1.real, 0, 0,
          (A.eigenvalues).lambda2.real⟩,
         none, false⟩) := by
  have hnone : (A.eigenvalues).isComplex = true →
      A.getEigenvectors = none := by
    intro hcx
    unfold Matrix2D.getEigenvectors
    rw [hcx]
    simp
  have huntouched : ∀ st : DiagState ℝ,
      (A.eigenvalues).isComplex = true → decompose st A = st := by
    intro st hcx
    unfold decompose
    rw [hnone hcx]
  refine ⟨huntouched, ?_, ?_⟩
  · intro hcx
    rw [huntouched initState hcx]
    rfl
  · intro st evec hgev hinv
    have hcx : (A.eigenvalues).isComplex = false := by
      by_contra hcx'
      rw [hnone (by simpa using hcx')] at hgev
      exact absurd hgev (by simp)
    unfold decompose
    rw [hgev]
    simp only [hcx, hinv]
    simp

/-- Witness for C3: the complex path at the rotation `{0,-1,1,0}` and the
singular-`P` path at the shear `{1,1,0,1}`. -/
theorem C3_witness :
    decompose initState ⟨0, -1, 1, 0⟩ = initState ∧
    decompose initState ⟨1, 1, 0, 1⟩ =
      ⟨⟨-1, -1, 0, 0⟩, ⟨1, 0, 0, 1⟩, none, false⟩ := by
  constructor
  · exact (C3_failure_paths ⟨0, -1, 1, 0⟩).1 initState
      (by norm_num [Matrix2D.eigenvalues, Matrix2D.trace,
        Matrix2D.determinant])
  · have h := (C3_failure_paths ⟨1, 1, 0, 1⟩).2.2 initState
      ⟨⟨-1, 0⟩, ⟨-1, 0⟩, 1, 1⟩ gev_shear (by simpa using inv_P_shear)
    rw [h, eig_shear]

/-- Counterexample to C3 as stated: on the shear `{1,1,0,1}` (singular
eigenvector matrix) the failed decomposition does mark
`isDiagonalizable = false`, but the computed `P = {-1,-1,0,0}` is retained
on the object — it differs from the identity `P` held before the call, so
`P` and `D` are not discarded. -/
theorem C3_retained_P_counterexample :
    (decompose initState ⟨1, 1, 0, 1⟩).isDiagonalizable = false ∧
    (decompose initState ⟨1, 1, 0, 1⟩).P = ⟨-1, -1, 0, 0⟩ ∧
    (decompose initState ⟨1, 1, 0, 1⟩).P ≠ initState.P := by
  rw [decompose_shear]
  refine ⟨rfl, rfl, fun h => ?_⟩
  have := congrArg Matrix2D.a h
  simp [initState, Matrix2D.identity] at this
  norm_num at this

/-- C8 (amended): the URL parser accepts a matrix query string only when
it splits into exactly four comma-separated chunks none of which converts
to `NaN`, passing those four values to the engine, and otherwise falls
back to the default matrix `{2,1,1,2}`; the accepted values need not be
finite, since `Infinity` passes the `isNaN` check. -/
theorem C8_parser_arity_and_nan_gate (s : List Char) :
    (∀ q : JSNum × JSNum × JSNum × JSNum,
      parseMatrixFromURL (some s) = some q →
        (splitOnSep ',' s).length = 4 ∧
        ((splitOnSep ',' s).map jsNumber).all (fun w => !w.isNaN) = true ∧
        targetMatrixOf (some s) = q) ∧
    (parseMatrixFromURL (some s) = none →
      targetMatrixOf (some s) =
        (JSNum.num 2, JSNum.num 1, JSNum.num 1, JSNum.num 2)) ∧
    targetMatrixOf none =
      (JSNum.num 2, JSNum.num 1, JSNum.num 1, JSNum.num 2) := by
  have hsome : parseMatrixFromURL (some s) =
      if s = [] then none
      else
        match (splitOnSep ',' s).map jsNumber with
        | [w0, w1, w2, w3] =>
          if !w0.isNaN && !w1.isNaN && !w2.isNaN && !w3.isNaN then
            some (w0, w1, w2, w3)
          else none
        | _ => none := rfl
  refine ⟨?_, ?_, rfl⟩
  · intro q hq
    have htm : targetMatrixOf (some s) = q := by
      unfold targetMatrixOf
      rw [hq]
      rfl
    rw [hsome] at hq
    split at hq
    · exact absurd hq (by simp)
    · split at hq
      · rename_i w0 w1 w2 w3 heq
        split at hq
        · rename_i hnan
          refine ⟨?_, ?_, htm⟩
          · have hlen := congrArg List.length heq
            simpa using hlen
          · rw [heq]
            obtain ⟨⟨⟨n0, n1⟩, n2⟩, n3⟩ := by simpa using hnan
            simp [n0, n1, n2, n3]
        · exact absurd hq (by simp)
      · exact absurd hq (by simp)
  · intro hnone
    unfold targetMatrixOf
    rw [hnone]
    rfl

/-- Witness for C8: the well-formed string `2,1,1,2` is accepted and
passed through; the malformed string `x` falls back to the default. -/
theorem C8_witness :
    ((splitOnSep ',' ['2', ',', '1', ',', '1', ',', '2']).length = 4 ∧
     ((splitOnSep ',' ['2', ',', '1', ',', '1', ',', '2']).map jsNumber).all
        (fun w => !w.isNaN) = true ∧
     targetMatrixOf (some ['2', ',', '1', ',', '1', ',', '2']) =
       (JSNum.num 2, JSNum.num 1, JSNum.num 1, JSNum.num 2)) ∧
    targetMatrixOf (some ['x']) =
      (JSNum.num 2, JSNum.num 1, JSNum.num 1, JSNum.num 2) :=
  ⟨(C8_parser_arity_and_nan_gate ['2', ',', '1', ',', '1', ',', '2']).1
     (JSNum.num 2, JSNum.num 1, JSNum.num 1, JSNum.num 2) (by decide),
   (C8_parser_arity_and_nan_gate ['x']).2.1 (by decide)⟩

/-- Counterexample to C8 as stated: the query value `Infinity,1,1,1`
splits into four chunks none of which is `NaN`, so the parser accepts it
and the engine receives the non-finite entry `Infinity` — the parser does
not guarantee four finite real numbers. -/
theorem C8_infinity_counterexample :
    parseMatrixFromURL (some ['I', 'n', 'f', 'i', 'n', 'i', 't', 'y', ',',
        '1', ',', '1', ',', '1']) =
      some (JSNum.inf, JSNum.num 1, JSNum.num 1, JSNum.num 1) ∧
    JSNum.isFinite JSNum.inf = false :=
  ⟨by decide, rfl⟩

end EigenViz
